import Mathlib

/-!
# Verification of the ahmet-kayaify assignment engine

A shallow embedding of `src/app/calculate/drawing_process.rs`: the spatial
locality policy (`DrawingParams::max_dist`), the stroke cohesion reward
(`stroke_reward_with_params`), the randomized swap batch (`DrawingState::step`
and the textually identical inner loop of `drawing_process_genetic`), and the
continuous worker's publish/cancellation protocol.

Modelling conventions:
* Rust `u32`/`u16`/`usize` values are `Nat`; wrapping casts to `i16`/`i32` are
  made explicit (`wrapI16`, `wrapI32`); `i64` values are `Int`;
  `u32::saturating_sub` is `Nat` subtraction.
* The `f32` arithmetic of `max_dist` is modelled at the precision the source
  has: the `u32 -> f32` casts of `max_dist_base`/`max_dist_min` round to
  nearest-even at 24 significand bits (`f32ofNat`) and the final `as u32` cast
  saturates; `f32::round` rounds half away from zero (`rustRound`).  The
  multiplication and `powi` on the `f32` field `max_dist_decay` are exact
  rational arithmetic, which agrees with `f32` whenever the intermediate
  products are representable — true of every decay value the theorems
  exercise (`0`, `1/2`, `1`, `2`).
* Slice indexing `xs[i]` is modelled totally with `List.getD _ _ default`; the
  checked variants (`strokeRewardChecked`) model Rust's panic-on-out-of-bounds
  (and debug-mode panic on `u32` subtraction underflow) as `Option.none`.
* The external heuristic primitive (`super::heuristic`, the color table and the
  target/weight arrays) is abstracted as an oracle function `heur`, keyed by the
  source coordinates of a pixel, the candidate canvas coordinates, and the
  candidate canvas index; the engine only ever threads its value through.
* The pseudorandom generator is abstracted: each swap attempt consumes one
  position draw and two offset draws, supplied as an `AttemptDraw`; all
  theorems quantify over arbitrary draw sequences.
-/

/-- `PixelData` (drawing_process.rs:15-19): per-canvas-cell stroke metadata,
mutated only by the external painter. -/
structure PixelData where
  stroke_id : Nat
  last_edited : Nat
deriving DecidableEq

instance : Inhabited PixelData := ⟨⟨0, 0⟩⟩

/-- `DRAWING_CANVAS_SIZE` (drawing_process.rs:32). -/
def DRAWING_CANVAS_SIZE : Nat := 128

/-- `DrawingParams` (drawing_process.rs:36-42).  `max_dist_decay` is an `f32`
in the source, modelled as an exact rational (see the header). -/
structure DrawingParams where
  stroke_reward : Int
  max_dist_base : Nat
  max_dist_decay : ℚ
  max_dist_min : Nat
deriving DecidableEq

/-- Rust `f32::round`: round half away from zero, on exact rationals. -/
def rustRound (q : ℚ) : Int :=
  if 0 ≤ q then ⌊q + 1 / 2⌋ else -⌊-q + 1 / 2⌋

/-- The exact value of `n as f32` for a `u32` argument `n`: round to nearest,
ties to even, at 24 significand bits.  Integers up to `2^24` are exact; a
`u32` above `2^24` has `25..32` bits, so the number `e` of dropped low bits
is read off the explicit threshold ladder and the kept 24-bit significand is
rounded (every `u32` is far below the `f32` overflow threshold, so only
precision is lost). -/
def f32ofNat (n : Nat) : Nat :=
  if n ≤ 16777216 then n
  else
    let e :=
      if n < 33554432 then 1
      else if n < 67108864 then 2
      else if n < 134217728 then 3
      else if n < 268435456 then 4
      else if n < 536870912 then 5
      else if n < 1073741824 then 6
      else if n < 2147483648 then 7
      else 8
    let q := n / 2 ^ e
    let r := n % 2 ^ e
    (if 2 * r > 2 ^ e ∨ (2 * r = 2 ^ e ∧ q % 2 = 1) then q + 1 else q) * 2 ^ e

lemma f32ofNat_of_le {n : Nat} (h : n ≤ 16777216) : f32ofNat n = n := by
  rw [f32ofNat, if_pos h]

/-- `DrawingParams::max_dist` (drawing_process.rs:45-49):
`decay_steps = age / 30` (integer division), then
`raw = (max_dist_base as f32) * max_dist_decay.powi(decay_steps)` and
`raw.round().max(max_dist_min as f32) as u32`.  The two `u32 -> f32` casts
and the final saturating `f32 -> u32` cast are modelled exactly (`f32ofNat`,
the `min 4294967295`); the multiplication and `powi` are exact rational
arithmetic (see the header). -/
def DrawingParams.max_dist (p : DrawingParams) (age : Nat) : Nat :=
  let decay_steps : Nat := age / 30
  let raw : ℚ := (f32ofNat p.max_dist_base : ℚ) * p.max_dist_decay ^ decay_steps
  min ((max (rustRound raw) (f32ofNat p.max_dist_min : Int)).toNat) 4294967295

lemma floor_half : (⌊(1 / 2 : ℚ)⌋ : Int) = 0 := by
  rw [Int.floor_eq_zero_iff]
  constructor <;> norm_num

lemma rustRound_intCast (z : ℤ) : rustRound ((z : ℚ)) = z := by
  by_cases h : 0 ≤ (z : ℚ)
  · rw [rustRound, if_pos h, add_comm, Int.floor_add_int, floor_half, zero_add]
  · rw [rustRound, if_neg h]
    have : (-(z : ℚ) + 1 / 2) = 1 / 2 + ((-z : ℤ) : ℚ) := by push_cast; ring
    rw [this, Int.floor_add_int, floor_half, zero_add, neg_neg]

lemma rustRound_natCast (n : ℕ) : rustRound ((n : ℚ)) = n := by
  have : ((n : ℚ)) = (((n : ℤ) : ℚ)) := by push_cast; ring
  rw [this, rustRound_intCast]

lemma rustRound_mono {q1 q2 : ℚ} (h : q1 ≤ q2) : rustRound q1 ≤ rustRound q2 := by
  by_cases h1 : 0 ≤ q1 <;> by_cases h2 : 0 ≤ q2
  · rw [rustRound, rustRound, if_pos h1, if_pos h2]
    exact Int.floor_le_floor (by linarith)
  · exact absurd (le_trans h1 h) h2
  · rw [rustRound, rustRound, if_neg h1, if_pos h2]
    have hl : (0 : Int) ≤ ⌊-q1 + 1 / 2⌋ := by
      rw [Int.floor_nonneg]
      have : 0 ≤ -q1 := by linarith [lt_of_not_le h1]
      linarith
    have hr : (0 : Int) ≤ ⌊q2 + 1 / 2⌋ := by
      rw [Int.floor_nonneg]; linarith
    omega
  · rw [rustRound, rustRound, if_neg h1, if_neg h2]
    have : ⌊-q2 + 1 / 2⌋ ≤ ⌊-q1 + 1 / 2⌋ := Int.floor_le_floor (by linarith)
    omega

/-- The locality radius never drops below the configured floor whenever the
floor itself is exactly representable in `f32` (`min ≤ 2^24`, which makes
`min as f32` the identity); for a larger floor the cast itself rounds, see
`max_dist_floor_cast_gap`. -/
lemma max_dist_min_le (p : DrawingParams) (a : Nat)
    (hmin : p.max_dist_min ≤ 16777216) : p.max_dist_min ≤ p.max_dist a := by
  show p.max_dist_min
      ≤ min ((max (rustRound ((f32ofNat p.max_dist_base : ℚ) * p.max_dist_decay ^ (a / 30)))
          (f32ofNat p.max_dist_min : Int)).toNat) 4294967295
  apply le_min
  · have h : (p.max_dist_min : Int)
        ≤ max (rustRound ((f32ofNat p.max_dist_base : ℚ) * p.max_dist_decay ^ (a / 30)))
            (f32ofNat p.max_dist_min : Int) := by
      rw [f32ofNat_of_le hmin]
      exact le_max_right _ _
    have := Int.toNat_le_toNat h
    rwa [Int.toNat_natCast] at this
  · omega

/-- With a decay factor in `[0, 1]` the locality radius is non-increasing in
age. -/
lemma max_dist_antitone (p : DrawingParams) (h0 : 0 ≤ p.max_dist_decay)
    (h1 : p.max_dist_decay ≤ 1) {a1 a2 : Nat} (h : a1 ≤ a2) :
    p.max_dist a2 ≤ p.max_dist a1 := by
  have hk : a1 / 30 ≤ a2 / 30 := Nat.div_le_div_right h
  have hpow : p.max_dist_decay ^ (a2 / 30) ≤ p.max_dist_decay ^ (a1 / 30) :=
    pow_le_pow_of_le_one h0 h1 hk
  have hraw : (f32ofNat p.max_dist_base : ℚ) * p.max_dist_decay ^ (a2 / 30)
      ≤ (f32ofNat p.max_dist_base : ℚ) * p.max_dist_decay ^ (a1 / 30) :=
    mul_le_mul_of_nonneg_left hpow (by positivity)
  have hmax := max_le_max (rustRound_mono hraw) (le_refl (f32ofNat p.max_dist_min : Int))
  exact min_le_min (Int.toNat_le_toNat hmax) le_rfl

/-- At age `0` the radius is `(base as f32).max(min as f32) as u32`:
`decay^0 = 1` exactly, so the rounded raw value is exactly the casted
base. -/
lemma max_dist_zero (p : DrawingParams) :
    p.max_dist 0
      = min (max (f32ofNat p.max_dist_base) (f32ofNat p.max_dist_min)) 4294967295 := by
  have h0 : (0 : Nat) / 30 = 0 := rfl
  simp only [DrawingParams.max_dist, h0, pow_zero, mul_one, rustRound_natCast]
  rw [← Nat.cast_max, Int.toNat_natCast]

/-- The program's floor can itself round: `max_dist_min = 2^24 + 1` (an
admitted `u32`) is cast to `2^24` by `min as f32` (ties to even), so the
radius comes out `2^24 < max_dist_min` — the unconditional floor is false of
the program. -/
lemma max_dist_floor_cast_gap :
    (DrawingParams.mk 0 0 0 16777217).max_dist 0 < 16777217 := by
  rw [max_dist_zero]
  decide

/-- C5 counterexample input: with `max_dist_decay = 2` (a value the public
`DrawingParams` type admits) the radius grows with age: `max_dist 0 = 1 <
2 = max_dist 30`, refuting monotone non-increase for every parameter value. -/
theorem max_dist_not_monotone_cex :
    (DrawingParams.mk 0 1 2 0).max_dist 0 < (DrawingParams.mk 0 1 2 0).max_dist 30 := by
  have hz : (DrawingParams.mk 0 1 2 0).max_dist 0 = 1 := by
    rw [max_dist_zero]
    rfl
  have h30 : (DrawingParams.mk 0 1 2 0).max_dist 30 = 2 := by
    have hk : (30 : Nat) / 30 = 1 := rfl
    simp only [DrawingParams.max_dist, hk, pow_one]
    rw [show f32ofNat (1 : Nat) = 1 from rfl, show f32ofNat (0 : Nat) = 0 from rfl]
    rw [show (((1 : ℕ) : ℚ) * 2) = (((2 : ℤ) : ℚ)) by push_cast; ring, rustRound_intCast]
    rfl
  rw [hz, h30]
  exact Nat.one_lt_two

/-- C5 (amended): for every `DrawingParams` with `0 ≤ max_dist_decay ≤ 1`,
`max_dist` is monotone non-increasing in age (a decay factor above `1` makes
the radius grow, see `max_dist_not_monotone_cex`); and the floor
`max_dist a ≥ max_dist_min` holds for every `DrawingParams` whose
`max_dist_min` is exactly representable in `f32` (`≤ 2^24`) — for a larger
floor the `u32 -> f32` cast rounds the floor itself and the inequality fails
(see `max_dist_floor_cast_gap`). -/
theorem max_dist_monotone_floor (p : DrawingParams) (a1 a2 : Nat) :
    (0 ≤ p.max_dist_decay → p.max_dist_decay ≤ 1 → a1 < a2 →
      p.max_dist a2 ≤ p.max_dist a1)
    ∧ (p.max_dist_min ≤ 16777216 → p.max_dist_min ≤ p.max_dist a1) := by
  constructor
  · intro h0 h1 hlt
    exact max_dist_antitone p h0 h1 (le_of_lt hlt)
  · intro hmin
    exact max_dist_min_le p a1 hmin

/-- Witness for `max_dist_monotone_floor` at the spec's example parameters:
`base = 10`, `decay = 1/2`, `min = 2`, ages `0 < 30`. -/
theorem max_dist_monotone_floor_witness :
    (DrawingParams.mk 0 10 (1 / 2) 2).max_dist 30 ≤ (DrawingParams.mk 0 10 (1 / 2) 2).max_dist 0
    ∧ (2 : Nat) ≤ (DrawingParams.mk 0 10 (1 / 2) 2).max_dist 0 :=
  ⟨(max_dist_monotone_floor (DrawingParams.mk 0 10 (1 / 2) 2) 0 30).1
      (by norm_num) (by norm_num) (by norm_num),
    (max_dist_monotone_floor (DrawingParams.mk 0 10 (1 / 2) 2) 0 30).2 (by norm_num)⟩

/-- C6: with `max_dist_base = 10`, `max_dist_decay = 1/2`, `max_dist_min = 2`
(all exactly representable in `f32`, and every intermediate product
`10 * (1/2)^k` a small dyadic, so the `f32` computation is exact), the
decayed radii are `max_dist 0 = 10`, `max_dist 30 = 5`, `max_dist 60 = 3`
(`2.5` rounds away from zero), `max_dist 300 = 2` (floored), for every
`stroke_reward` value. -/
theorem max_dist_example_values (sr : Int) :
    (DrawingParams.mk sr 10 (1 / 2) 2).max_dist 0 = 10
    ∧ (DrawingParams.mk sr 10 (1 / 2) 2).max_dist 30 = 5
    ∧ (DrawingParams.mk sr 10 (1 / 2) 2).max_dist 60 = 3
    ∧ (DrawingParams.mk sr 10 (1 / 2) 2).max_dist 300 = 2 := by
  refine ⟨?_, ?_, ?_, ?_⟩
  · rw [max_dist_zero]
    rfl
  · have hk : (30 : Nat) / 30 = 1 := rfl
    simp only [DrawingParams.max_dist, hk, pow_one]
    rw [show f32ofNat (10 : Nat) = 10 from rfl, show f32ofNat (2 : Nat) = 2 from rfl]
    rw [show (((10 : ℕ) : ℚ) * (1 / 2)) = (((5 : ℤ) : ℚ)) by push_cast; ring,
      rustRound_intCast]
    rfl
  · have hk : (60 : Nat) / 30 = 2 := rfl
    simp only [DrawingParams.max_dist, hk]
    rw [show f32ofNat (10 : Nat) = 10 from rfl, show f32ofNat (2 : Nat) = 2 from rfl]
    have hraw : ((10 : ℕ) : ℚ) * (1 / 2) ^ 2 = 5 / 2 := by norm_num
    rw [hraw, rustRound, if_pos (by norm_num)]
    rw [show ((5 / 2 + 1 / 2 : ℚ)) = (((3 : ℤ) : ℚ)) by norm_num, Int.floor_intCast]
    rfl
  · have hk : (300 : Nat) / 30 = 10 := rfl
    simp only [DrawingParams.max_dist, hk]
    rw [show f32ofNat (10 : Nat) = 10 from rfl, show f32ofNat (2 : Nat) = 2 from rfl]
    have hraw : ((10 : ℕ) : ℚ) * (1 / 2) ^ 10 = 5 / 512 := by norm_num
    rw [hraw, rustRound, if_pos (by norm_num)]
    have hfl : (⌊(5 / 512 + 1 / 2 : ℚ)⌋ : Int) = 0 := by
      rw [Int.floor_eq_zero_iff]
      constructor <;> norm_num
    rw [hfl]
    rfl

/-- `DrawingPixel` (drawing_process.rs:52-57): one entry of the assignment
sequence — the source coordinates currently held by a canvas slot and the
cached base heuristic `h` (no stroke reward). -/
structure DrawingPixel where
  src_x : Nat
  src_y : Nat
  h : Int
deriving DecidableEq

instance : Inhabited DrawingPixel := ⟨⟨0, 0, 0⟩⟩

/-- The metadata index of the source pixel occupying canvas position `pos`
(drawing_process.rs:245-246, 267-268):
`pixels[pos].src_x + pixels[pos].src_y * DRAWING_CANVAS_SIZE`. -/
def cellIndex (pixels : List DrawingPixel) (pos : Nat) : Nat :=
  (pixels.getD pos default).src_x + (pixels.getD pos default).src_y * DRAWING_CANVAS_SIZE

/-- The neighbor offsets examined by `stroke_reward_with_params`
(drawing_process.rs:250-259): up, left, right, down — the four diagonal
offsets are commented out in the source. -/
def strokeOffsets : List (Int × Int) := [(0, -1), (-1, 0), (1, 0), (0, 1)]

/-- The loop of `stroke_reward_with_params` (drawing_process.rs:250-275):
walk the offsets in order; skip an offset whose neighbor coordinates fall
outside the 128×128 canvas; return `params.stroke_reward` at the first
neighbor whose occupant's metadata cell carries `stroke_id`; return `0` when
the offsets are exhausted. -/
def strokeRewardLoop (stroke_id : Nat) (x y : Int) (pixel_data : List PixelData)
    (pixels : List DrawingPixel) (params : DrawingParams) : List (Int × Int) → Int
  | [] => 0
  | (dx, dy) :: rest =>
    let nx := x + dx
    let ny := y + dy
    if nx < 0 ∨ nx ≥ (DRAWING_CANVAS_SIZE : Int) ∨ ny < 0 ∨ ny ≥ (DRAWING_CANVAS_SIZE : Int) then
      strokeRewardLoop stroke_id x y pixel_data pixels params rest
    else
      if (pixel_data.getD
          (cellIndex pixels (ny.toNat * DRAWING_CANVAS_SIZE + nx.toNat)) default).stroke_id
          = stroke_id then
        params.stroke_reward
      else
        strokeRewardLoop stroke_id x y pixel_data pixels params rest

/-- `stroke_reward_with_params` (drawing_process.rs:233-276), release
semantics: `x = (newpos % 128) as u16`, `y = (newpos / 128) as u16`, the
occupant of `oldpos` selects the metadata cell whose `stroke_id` is compared
against the 4-connected neighbors of `newpos`.  The dead
`let _age = frame_count - data.last_edited` (line 248) is kept as an unused
binding; its debug-mode underflow panic is modelled by
`strokeRewardChecked`. -/
def stroke_reward_with_params (newpos oldpos : Nat) (pixel_data : List PixelData)
    (pixels : List DrawingPixel) (frame_count : Nat) (params : DrawingParams) : Int :=
  let x : Int := ((newpos % DRAWING_CANVAS_SIZE : Nat) : Int)
  let y : Int := ((newpos / DRAWING_CANVAS_SIZE % 65536 : Nat) : Int)
  let data := pixel_data.getD (cellIndex pixels oldpos) default
  let stroke_id := data.stroke_id
  let _age := frame_count - data.last_edited
  strokeRewardLoop stroke_id x y pixel_data pixels params strokeOffsets

/-- One neighbor offset `d` of `newpos` is in bounds and its occupant was
painted by the same stroke as `oldpos`'s occupant — the match condition of
the loop body, as the spec phrases it (neighbor canvas cell → source
coordinates of its occupant → that source pixel's metadata cell). -/
def neighborSameStroke (newpos oldpos : Nat) (pixel_data : List PixelData)
    (pixels : List DrawingPixel) (d : Int × Int) : Prop :=
  let x : Int := ((newpos % DRAWING_CANVAS_SIZE : Nat) : Int)
  let y : Int := ((newpos / DRAWING_CANVAS_SIZE % 65536 : Nat) : Int)
  let nx := x + d.1
  let ny := y + d.2
  (0 ≤ nx ∧ nx < (DRAWING_CANVAS_SIZE : Int) ∧ 0 ≤ ny ∧ ny < (DRAWING_CANVAS_SIZE : Int))
  ∧ (pixel_data.getD (cellIndex pixels (ny.toNat * DRAWING_CANVAS_SIZE + nx.toNat)) default).stroke_id
      = (pixel_data.getD (cellIndex pixels oldpos) default).stroke_id

instance (newpos oldpos : Nat) (pixel_data : List PixelData)
    (pixels : List DrawingPixel) (d : Int × Int) :
    Decidable (neighborSameStroke newpos oldpos pixel_data pixels d) := by
  unfold neighborSameStroke
  exact instDecidableAnd

lemma strokeRewardLoop_spec (stroke_id : Nat) (x y : Int) (pixel_data : List PixelData)
    (pixels : List DrawingPixel) (params : DrawingParams) (offs : List (Int × Int)) :
    strokeRewardLoop stroke_id x y pixel_data pixels params offs
      = if (∃ d ∈ offs,
            (0 ≤ x + d.1 ∧ x + d.1 < (DRAWING_CANVAS_SIZE : Int)
              ∧ 0 ≤ y + d.2 ∧ y + d.2 < (DRAWING_CANVAS_SIZE : Int))
            ∧ (pixel_data.getD
                (cellIndex pixels ((y + d.2).toNat * DRAWING_CANVAS_SIZE + (x + d.1).toNat))
                default).stroke_id = stroke_id)
        then params.stroke_reward else 0 := by
  induction offs with
  | nil => simp [strokeRewardLoop]
  | cons d rest ih =>
    obtain ⟨dx, dy⟩ := d
    rw [strokeRewardLoop]
    by_cases hb : x + dx < 0 ∨ x + dx ≥ (DRAWING_CANVAS_SIZE : Int)
        ∨ y + dy < 0 ∨ y + dy ≥ (DRAWING_CANVAS_SIZE : Int)
    · rw [if_pos hb, ih]
      have hnot : ¬((0 ≤ x + dx ∧ x + dx < (DRAWING_CANVAS_SIZE : Int)
          ∧ 0 ≤ y + dy ∧ y + dy < (DRAWING_CANVAS_SIZE : Int))
          ∧ (pixel_data.getD
              (cellIndex pixels ((y + dy).toNat * DRAWING_CANVAS_SIZE + (x + dx).toNat))
              default).stroke_id = stroke_id) := by
        rintro ⟨⟨h1, h2, h3, h4⟩, -⟩
        rcases hb with h | h | h | h <;> omega
      simp only [List.mem_cons, exists_eq_or_imp]
      rw [if_congr (Iff.intro (fun h => Or.resolve_left h hnot) Or.inr) rfl rfl]
    · rw [if_neg hb]
      push_neg at hb
      obtain ⟨h1, h2, h3, h4⟩ := hb
      by_cases hm : (pixel_data.getD
          (cellIndex pixels ((y + dy).toNat * DRAWING_CANVAS_SIZE + (x + dx).toNat))
          default).stroke_id = stroke_id
      · rw [if_pos hm, if_pos]
        exact ⟨(dx, dy), List.mem_cons_self _ _, ⟨h1, h2, h3, h4⟩, hm⟩
      · rw [if_neg hm, ih]
        have hnot : ¬((0 ≤ x + dx ∧ x + dx < (DRAWING_CANVAS_SIZE : Int)
            ∧ 0 ≤ y + dy ∧ y + dy < (DRAWING_CANVAS_SIZE : Int))
            ∧ (pixel_data.getD
                (cellIndex pixels ((y + dy).toNat * DRAWING_CANVAS_SIZE + (x + dx).toNat))
                default).stroke_id = stroke_id) := fun h => hm h.2
        simp only [List.mem_cons, exists_eq_or_imp]
        rw [if_congr (Iff.intro (fun h => Or.resolve_left h hnot) Or.inr) rfl rfl]

/-- C4: the stroke cohesion reward is exactly `params.stroke_reward` when at
least one of the four offsets up/left/right/down yields an in-bounds neighbor
whose occupant's metadata cell (reached through the permutation) carries the
same `stroke_id` as the metadata cell of `oldpos`'s occupant, and exactly `0`
otherwise; the offset list is precisely `strokeOffsets`, so diagonal
neighbors never contribute. -/
theorem stroke_cohesion_reward_spec (newpos oldpos : Nat) (pixel_data : List PixelData)
    (pixels : List DrawingPixel) (frame_count : Nat) (params : DrawingParams) :
    stroke_reward_with_params newpos oldpos pixel_data pixels frame_count params
      = if ∃ d ∈ strokeOffsets, neighborSameStroke newpos oldpos pixel_data pixels d
        then params.stroke_reward else 0 := by
  rw [stroke_reward_with_params, strokeRewardLoop_spec]
  rfl

lemma getD_eq_getElem_of_lt {α : Type} [Inhabited α] (l : List α) (i : Nat)
    (h : i < l.length) : l.getD i default = l[i] := by
  rw [List.getD_eq_getElem?_getD, List.getElem?_eq_getElem h]
  rfl

/-- The loop of `stroke_reward_with_params` with Rust's checked semantics:
every slice access `xs[i]` is `none` when `i` is out of bounds (the panic).
Out-of-bounds *neighbor coordinates* are skipped exactly as in the total
model — the `continue` at drawing_process.rs:262-265 — they are not
errors. -/
def strokeRewardLoopChecked (stroke_id : Nat) (x y : Int) (pixel_data : List PixelData)
    (pixels : List DrawingPixel) (params : DrawingParams) : List (Int × Int) → Option Int
  | [] => some 0
  | (dx, dy) :: rest =>
    let nx := x + dx
    let ny := y + dy
    if nx < 0 ∨ nx ≥ (DRAWING_CANVAS_SIZE : Int) ∨ ny < 0 ∨ ny ≥ (DRAWING_CANVAS_SIZE : Int) then
      strokeRewardLoopChecked stroke_id x y pixel_data pixels params rest
    else
      match pixels[ny.toNat * DRAWING_CANVAS_SIZE + nx.toNat]? with
      | none => none
      | some p =>
        match pixel_data[p.src_x + p.src_y * DRAWING_CANVAS_SIZE]? with
        | none => none
        | some cell =>
          if cell.stroke_id = stroke_id then some params.stroke_reward
          else strokeRewardLoopChecked stroke_id x y pixel_data pixels params rest

/-- `stroke_reward_with_params` with Rust's checked semantics: slice indexing
panics out of bounds, and the `let _age = frame_count - data.last_edited` at
drawing_process.rs:248 is an unchecked `u32` subtraction, which panics in a
debug build whenever `last_edited > frame_count`; both panics are modelled as
`none`. -/
def strokeRewardChecked (newpos oldpos : Nat) (pixel_data : List PixelData)
    (pixels : List DrawingPixel) (frame_count : Nat) (params : DrawingParams) : Option Int :=
  let x : Int := ((newpos % DRAWING_CANVAS_SIZE : Nat) : Int)
  let y : Int := ((newpos / DRAWING_CANVAS_SIZE % 65536 : Nat) : Int)
  match pixels[oldpos]? with
  | none => none
  | some pOld =>
    match pixel_data[pOld.src_x + pOld.src_y * DRAWING_CANVAS_SIZE]? with
    | none => none
    | some data =>
      if frame_count < data.last_edited then none
      else strokeRewardLoopChecked data.stroke_id x y pixel_data pixels params strokeOffsets

/-- C3 counterexample input: a full-size canvas whose (single, shared)
metadata cell was stamped at time step `5` evaluated by a worker whose
`frame_count` is `4` — exactly the "edited in the future" staleness the spec
itself admits.  The checked evaluation of the stroke reward panics on the
`u32` subtraction `frame_count - data.last_edited` (drawing_process.rs:248),
so the swap-evaluation arithmetic *can* error. -/
theorem strokeReward_age_underflow_cex :
    strokeRewardChecked 0 0
      (List.replicate (DRAWING_CANVAS_SIZE * DRAWING_CANVAS_SIZE) (PixelData.mk 0 5))
      (List.replicate (DRAWING_CANVAS_SIZE * DRAWING_CANVAS_SIZE) (DrawingPixel.mk 0 0 0))
      4 (DrawingParams.mk 1 10 (1 / 2) 2) = none := by
  rw [strokeRewardChecked]
  norm_num [List.getElem?_replicate, DRAWING_CANVAS_SIZE]

/-- The frozen claim's indexing half also fails for engine side lengths
other than 128: the neighbor bound check at drawing_process.rs:262-265 is
against the fixed `DRAWING_CANVAS_SIZE = 128`, not the actual permutation
length.  With side length 64 the permutation has `64 * 64 = 4096` entries;
at `newpos = 4095` (column 127, row 31 of the 128-wide decomposition) the up
and left neighbors' occupants fail the stroke comparison, the right neighbor
(column 128) is correctly skipped as out of canvas, and the down neighbor
yields `npos = 32 * 128 + 127 = 4223 ≥ 4096`, so `pixels[4223]` panics —
with the metadata array at its real canvas size and no future-edited cell
(`last_edited = 0 ≤ frame_count`). -/
lemma strokeReward_oob_small_canvas :
    strokeRewardChecked 4095 4095
      ((List.replicate (DRAWING_CANVAS_SIZE * DRAWING_CANVAS_SIZE) (PixelData.mk 0 0)).set 0
        (PixelData.mk 1 0))
      ((List.replicate 4096 (DrawingPixel.mk 1 0 0)).set 4095 (DrawingPixel.mk 0 0 0))
      0 (DrawingParams.mk 1 10 (1 / 2) 2) = none := by
  rw [strokeRewardChecked]
  simp only [List.getElem?_set, List.length_replicate, List.getElem?_replicate,
    DRAWING_CANVAS_SIZE]
  norm_num
  rw [show strokeOffsets
      = [((0 : Int), (-1 : Int)), ((-1 : Int), (0 : Int)), ((1 : Int), (0 : Int)),
          ((0 : Int), (1 : Int))] from rfl]
  have epd : (1 : Nat) + 0 * DRAWING_CANVAS_SIZE = 1 := by norm_num
  have gpd : ((List.replicate 16384 (PixelData.mk 0 0)).set 0 (PixelData.mk 1 0))[(1 : Nat)]?
      = some (PixelData.mk 0 0) := by
    rw [List.getElem?_set]
    norm_num [List.getElem?_replicate]
  rw [strokeRewardLoopChecked]
  rw [if_neg (by norm_num [DRAWING_CANVAS_SIZE])]
  have e1 : ((31 + -1 : Int)).toNat * DRAWING_CANVAS_SIZE + ((127 + 0 : Int)).toNat = 3967 := by
    decide
  have g1 : ((List.replicate 4096 (DrawingPixel.mk 1 0 0)).set 4095
      (DrawingPixel.mk 0 0 0))[(3967 : Nat)]? = some (DrawingPixel.mk 1 0 0) := by
    rw [List.getElem?_set]
    norm_num [List.getElem?_replicate]
  simp only [e1, g1, epd, gpd]
  rw [if_neg (by norm_num)]
  rw [strokeRewardLoopChecked]
  rw [if_neg (by norm_num [DRAWING_CANVAS_SIZE])]
  have e2 : ((31 + 0 : Int)).toNat * DRAWING_CANVAS_SIZE + ((127 + -1 : Int)).toNat = 4094 := by
    decide
  have g2 : ((List.replicate 4096 (DrawingPixel.mk 1 0 0)).set 4095
      (DrawingPixel.mk 0 0 0))[(4094 : Nat)]? = some (DrawingPixel.mk 1 0 0) := by
    rw [List.getElem?_set]
    norm_num [List.getElem?_replicate]
  simp only [e2, g2, epd, gpd]
  rw [if_neg (by norm_num)]
  rw [strokeRewardLoopChecked]
  rw [if_pos (by norm_num [DRAWING_CANVAS_SIZE])]
  rw [strokeRewardLoopChecked]
  rw [if_neg (by norm_num [DRAWING_CANVAS_SIZE])]
  have e4 : ((31 + 1 : Int)).toNat * DRAWING_CANVAS_SIZE + ((127 + 0 : Int)).toNat = 4223 := by
    decide
  have g4 : ((List.replicate 4096 (DrawingPixel.mk 1 0 0)).set 4095
      (DrawingPixel.mk 0 0 0))[(4223 : Nat)]? = none := by
    rw [List.getElem?_set]
    norm_num [List.getElem?_replicate]
  simp only [e4, g4]

lemma strokeRewardLoopChecked_eq (stroke_id : Nat) (x y : Int)
    (pixel_data : List PixelData) (pixels : List DrawingPixel) (params : DrawingParams)
    (hps : pixels.length = DRAWING_CANVAS_SIZE * DRAWING_CANVAS_SIZE)
    (hpd : pixel_data.length = DRAWING_CANVAS_SIZE * DRAWING_CANVAS_SIZE)
    (hsrc : ∀ p ∈ pixels, p.src_x < DRAWING_CANVAS_SIZE ∧ p.src_y < DRAWING_CANVAS_SIZE) :
    ∀ offs : List (Int × Int),
      strokeRewardLoopChecked stroke_id x y pixel_data pixels params offs
        = some (strokeRewardLoop stroke_id x y pixel_data pixels params offs)
  | [] => rfl
  | (dx, dy) :: rest => by
    rw [strokeRewardLoopChecked, strokeRewardLoop]
    by_cases hb : x + dx < 0 ∨ x + dx ≥ (DRAWING_CANVAS_SIZE : Int)
        ∨ y + dy < 0 ∨ y + dy ≥ (DRAWING_CANVAS_SIZE : Int)
    · rw [if_pos hb, if_pos hb]
      exact strokeRewardLoopChecked_eq stroke_id x y pixel_data pixels params
        hps hpd hsrc rest
    · rw [if_neg hb, if_neg hb]
      push_neg at hb
      obtain ⟨h1, h2, h3, h4⟩ := hb
      have hnpos : (y + dy).toNat * DRAWING_CANVAS_SIZE + (x + dx).toNat
          < DRAWING_CANVAS_SIZE * DRAWING_CANVAS_SIZE := by
        have hxlt : (x + dx).toNat < DRAWING_CANVAS_SIZE := by
          rw [DRAWING_CANVAS_SIZE] at h2 ⊢; omega
        have hylt : (y + dy).toNat < DRAWING_CANVAS_SIZE := by
          rw [DRAWING_CANVAS_SIZE] at h4 ⊢; omega
        calc (y + dy).toNat * DRAWING_CANVAS_SIZE + (x + dx).toNat
            < (y + dy).toNat * DRAWING_CANVAS_SIZE + DRAWING_CANVAS_SIZE := by omega
          _ = ((y + dy).toNat + 1) * DRAWING_CANVAS_SIZE := by ring
          _ ≤ DRAWING_CANVAS_SIZE * DRAWING_CANVAS_SIZE :=
              Nat.mul_le_mul_right _ (by omega)
      have hnposlen : (y + dy).toNat * DRAWING_CANVAS_SIZE + (x + dx).toNat < pixels.length := by
        rw [hps]; exact hnpos
      have hmem := List.getElem_mem hnposlen
      obtain ⟨hsx, hsy⟩ := hsrc _ hmem
      have hcell : pixels[(y + dy).toNat * DRAWING_CANVAS_SIZE + (x + dx).toNat].src_x
          + pixels[(y + dy).toNat * DRAWING_CANVAS_SIZE + (x + dx).toNat].src_y * DRAWING_CANVAS_SIZE
          < pixel_data.length := by
        rw [hpd]
        simp only [DRAWING_CANVAS_SIZE] at hsx hsy ⊢
        omega
      have hgd : cellIndex pixels ((y + dy).toNat * DRAWING_CANVAS_SIZE + (x + dx).toNat)
          = pixels[(y + dy).toNat * DRAWING_CANVAS_SIZE + (x + dx).toNat].src_x
            + pixels[(y + dy).toNat * DRAWING_CANVAS_SIZE + (x + dx).toNat].src_y * DRAWING_CANVAS_SIZE := by
        rw [cellIndex, getD_eq_getElem_of_lt _ _ hnposlen]
      have hgd2 : pixel_data.getD (cellIndex pixels ((y + dy).toNat * DRAWING_CANVAS_SIZE + (x + dx).toNat)) default
          = pixel_data[pixels[(y + dy).toNat * DRAWING_CANVAS_SIZE + (x + dx).toNat].src_x
              + pixels[(y + dy).toNat * DRAWING_CANVAS_SIZE + (x + dx).toNat].src_y * DRAWING_CANVAS_SIZE] := by
        rw [hgd, getD_eq_getElem_of_lt _ _ hcell]
      simp only [List.getElem?_eq_getElem hnposlen, List.getElem?_eq_getElem hcell, hgd2]
      by_cases hm : pixel_data[pixels[(y + dy).toNat * DRAWING_CANVAS_SIZE + (x + dx).toNat].src_x
          + pixels[(y + dy).toNat * DRAWING_CANVAS_SIZE + (x + dx).toNat].src_y * DRAWING_CANVAS_SIZE].stroke_id
          = stroke_id
      · rw [if_pos hm, if_pos hm]
      · rw [if_neg hm, if_neg hm]
        exact strokeRewardLoopChecked_eq stroke_id x y pixel_data pixels params
          hps hpd hsrc rest

/-- C3 (amended): within the 128-sided configuration — canvas-sized arrays
and permutation entries carrying in-range source coordinates — the checked
evaluation of the stroke cohesion reward succeeds: every index formed from a
neighbor offset or through the permutation stays inside the arrays and
out-of-bounds neighbor offsets are skipped, *provided* the metadata cell of
`oldpos`'s occupant was not edited after `frame_count`.  Both restrictions
are forced by counterexamples the frozen claim excluded: the age subtraction
at drawing_process.rs:248 is an unchecked `u32` subtraction that underflows
whenever `last_edited > frame_count` (`strokeReward_age_underflow_cex`), and
for any other admitted side length the bound check — made against the fixed
128×128 constant rather than the permutation's length — lets an in-canvas
neighbor index run past the permutation (`strokeReward_oob_small_canvas`). -/
theorem strokeReward_checked_safe (newpos oldpos : Nat) (pixel_data : List PixelData)
    (pixels : List DrawingPixel) (frame_count : Nat) (params : DrawingParams)
    (hps : pixels.length = DRAWING_CANVAS_SIZE * DRAWING_CANVAS_SIZE)
    (hpd : pixel_data.length = DRAWING_CANVAS_SIZE * DRAWING_CANVAS_SIZE)
    (hsrc : ∀ p ∈ pixels, p.src_x < DRAWING_CANVAS_SIZE ∧ p.src_y < DRAWING_CANVAS_SIZE)
    (hold : oldpos < DRAWING_CANVAS_SIZE * DRAWING_CANVAS_SIZE)
    (hage : (pixel_data.getD (cellIndex pixels oldpos) default).last_edited ≤ frame_count) :
    strokeRewardChecked newpos oldpos pixel_data pixels frame_count params
      = some (stroke_reward_with_params newpos oldpos pixel_data pixels frame_count params) := by
  have holdlen : oldpos < pixels.length := by rw [hps]; exact hold
  obtain ⟨hsx, hsy⟩ := hsrc _ (List.getElem_mem holdlen)
  have hcell : pixels[oldpos].src_x + pixels[oldpos].src_y * DRAWING_CANVAS_SIZE
      < pixel_data.length := by
    rw [hpd]
    simp only [DRAWING_CANVAS_SIZE] at hsx hsy ⊢
    omega
  have hgd : pixel_data.getD (cellIndex pixels oldpos) default
      = pixel_data[pixels[oldpos].src_x + pixels[oldpos].src_y * DRAWING_CANVAS_SIZE] := by
    rw [cellIndex, getD_eq_getElem_of_lt _ _ holdlen, getD_eq_getElem_of_lt _ _ hcell]
  rw [strokeRewardChecked, stroke_reward_with_params]
  simp only [List.getElem?_eq_getElem holdlen, List.getElem?_eq_getElem hcell]
  rw [hgd] at hage
  rw [if_neg (by omega), ← hgd]
  rw [strokeRewardLoopChecked_eq _ _ _ _ _ _ hps hpd hsrc]

/-- Witness for `strokeReward_checked_safe`: the all-zero full-size canvas at
`frame_count = 0` satisfies every hypothesis, and the checked reward agrees
with the total model there. -/
theorem strokeReward_checked_safe_witness :
    ((List.replicate (DRAWING_CANVAS_SIZE * DRAWING_CANVAS_SIZE) (DrawingPixel.mk 0 0 0)).length
        = DRAWING_CANVAS_SIZE * DRAWING_CANVAS_SIZE)
    ∧ ((List.replicate (DRAWING_CANVAS_SIZE * DRAWING_CANVAS_SIZE) (PixelData.mk 0 0)).length
        = DRAWING_CANVAS_SIZE * DRAWING_CANVAS_SIZE)
    ∧ (∀ p ∈ List.replicate (DRAWING_CANVAS_SIZE * DRAWING_CANVAS_SIZE) (DrawingPixel.mk 0 0 0),
        p.src_x < DRAWING_CANVAS_SIZE ∧ p.src_y < DRAWING_CANVAS_SIZE)
    ∧ strokeRewardChecked 0 0
        (List.replicate (DRAWING_CANVAS_SIZE * DRAWING_CANVAS_SIZE) (PixelData.mk 0 0))
        (List.replicate (DRAWING_CANVAS_SIZE * DRAWING_CANVAS_SIZE) (DrawingPixel.mk 0 0 0))
        0 (DrawingParams.mk 1 10 (1 / 2) 2)
      = some (stroke_reward_with_params 0 0
          (List.replicate (DRAWING_CANVAS_SIZE * DRAWING_CANVAS_SIZE) (PixelData.mk 0 0))
          (List.replicate (DRAWING_CANVAS_SIZE * DRAWING_CANVAS_SIZE) (DrawingPixel.mk 0 0 0))
          0 (DrawingParams.mk 1 10 (1 / 2) 2)) :=
  ⟨List.length_replicate _ _, List.length_replicate _ _,
    fun p hp => by
      rw [List.mem_replicate] at hp
      rw [hp.2, DRAWING_CANVAS_SIZE]
      exact ⟨by norm_num, by norm_num⟩,
    strokeReward_checked_safe 0 0 _ _ 0 _
      (List.length_replicate _ _) (List.length_replicate _ _)
      (fun p hp => by
        rw [List.mem_replicate] at hp
        rw [hp.2, DRAWING_CANVAS_SIZE]
        exact ⟨by norm_num, by norm_num⟩)
      (by rw [DRAWING_CANVAS_SIZE]; norm_num)
      (by
        have : cellIndex (List.replicate (DRAWING_CANVAS_SIZE * DRAWING_CANVAS_SIZE)
            (DrawingPixel.mk 0 0 0)) 0 = 0 := by
          rw [cellIndex, List.getD_eq_getElem?_getD, List.getElem?_replicate]
          norm_num [DRAWING_CANVAS_SIZE]
        rw [this, List.getD_eq_getElem?_getD, List.getElem?_replicate]
        norm_num [DRAWING_CANVAS_SIZE])⟩

/-- Wrapping cast to `i16` (used by the source at `ax as i16`,
`sidelen as i16` and the `i16` additions in `DrawingState::step`,
drawing_process.rs:165-170). -/
def wrapI16 (n : Int) : Int := (n + 32768) % 65536 - 32768

/-- Wrapping cast to `i32` (`max_dist_b as i32`, drawing_process.rs:174). -/
def wrapI32 (n : Int) : Int := (n + 2147483648) % 4294967296 - 2147483648

/-- Rust `clamp(lo, hi)` on integers (total: the source's clamp panics when
`hi < lo`, which cannot happen for the side lengths the theorems use). -/
def clampInt (lo hi v : Int) : Int := max lo (min hi v)

/-- The (engine-owned or snapshot-owned) context of one batch of swap
attempts: the side length and the batch-constant inputs — the metadata
snapshot, the launch `frame_count`, the params, and the external
heuristic/color/target/weight oracle `heur` (keyed by the occupant's source
coordinates, the candidate canvas coordinates, and the candidate canvas
index, which determines the target color and weight the source passes). -/
structure StepEnv where
  sidelen : Nat
  pixel_data : List PixelData
  frame_count : Nat
  params : DrawingParams
  heur : Nat × Nat → Nat × Nat → Nat → Int

/-- The three pseudorandom values one swap attempt consumes
(drawing_process.rs:159, 166, 169): the canvas position draw and the two
offset draws.  The generator is abstracted; theorems quantify over arbitrary
draws. -/
structure AttemptDraw where
  aDraw : Nat
  dx : Int
  dy : Int

/-- `ax = apos as u16 % sidelen as u16` (drawing_process.rs:160). -/
def axOf (env : StepEnv) (d : AttemptDraw) : Nat :=
  d.aDraw % 65536 % (env.sidelen % 65536)

/-- `ay = apos as u16 / sidelen as u16` (drawing_process.rs:161). -/
def ayOf (env : StepEnv) (d : AttemptDraw) : Nat :=
  d.aDraw % 65536 / (env.sidelen % 65536)

/-- `max_dist_a = params.max_dist(frame_count.saturating_sub(pixel_data[apos].last_edited))`
(drawing_process.rs:163). -/
def maxDistA (env : StepEnv) (d : AttemptDraw) : Nat :=
  env.params.max_dist (env.frame_count - (env.pixel_data.getD d.aDraw default).last_edited)

/-- `bx = (ax as i16 + draw).clamp(0, sidelen as i16 - 1) as u16`
(drawing_process.rs:165-167). -/
def bxOf (env : StepEnv) (d : AttemptDraw) : Nat :=
  (clampInt 0 (wrapI16 (env.sidelen : Int) - 1)
    (wrapI16 (wrapI16 (axOf env d : Int) + d.dx))).toNat

/-- `by = (ay as i16 + draw).clamp(0, sidelen as i16 - 1) as u16`
(drawing_process.rs:168-170). -/
def byOf (env : StepEnv) (d : AttemptDraw) : Nat :=
  (clampInt 0 (wrapI16 (env.sidelen : Int) - 1)
    (wrapI16 (wrapI16 (ayOf env d : Int) + d.dy))).toNat

/-- `bpos = by as usize * sidelen as usize + bx as usize`
(drawing_process.rs:171). -/
def bposOf (env : StepEnv) (d : AttemptDraw) : Nat :=
  byOf env d * env.sidelen + bxOf env d

/-- `max_dist_b = params.max_dist(frame_count.saturating_sub(pixel_data[bpos].last_edited))`
(drawing_process.rs:173). -/
def maxDistB (env : StepEnv) (d : AttemptDraw) : Nat :=
  env.params.max_dist (env.frame_count - (env.pixel_data.getD (bposOf env d) default).last_edited)

/-- The source coordinates of the occupant of canvas position `i`. -/
def srcOf (pixels : List DrawingPixel) (i : Nat) : Nat × Nat :=
  ((pixels.getD i default).src_x, (pixels.getD i default).src_y)

/-- `improvement_a = current_a - b_on_a_h` (drawing_process.rs:183-184,
195-201, 205-206, 208): the cached heuristic of A's occupant plus A's
occupant's cohesion at A, minus the recomputed base cost of B's occupant at
A plus B's occupant's cohesion evaluated at A. -/
def improvementA (env : StepEnv) (pixels : List DrawingPixel) (d : AttemptDraw) : Int :=
  ((pixels.getD d.aDraw default).h
      + stroke_reward_with_params d.aDraw d.aDraw env.pixel_data pixels env.frame_count env.params)
    - (env.heur (srcOf pixels (bposOf env d)) (axOf env d, ayOf env d) d.aDraw
      + stroke_reward_with_params d.aDraw (bposOf env d) env.pixel_data pixels env.frame_count env.params)

/-- `improvement_b = current_b - a_on_b_h` (drawing_process.rs:185-186,
188-194, 202-203, 209), symmetric to `improvementA`. -/
def improvementB (env : StepEnv) (pixels : List DrawingPixel) (d : AttemptDraw) : Int :=
  ((pixels.getD (bposOf env d) default).h
      + stroke_reward_with_params (bposOf env d) (bposOf env d) env.pixel_data pixels env.frame_count env.params)
    - (env.heur (srcOf pixels d.aDraw) (bxOf env d, byOf env d) (bposOf env d)
      + stroke_reward_with_params (bposOf env d) d.aDraw env.pixel_data pixels env.frame_count env.params)

/-- `Vec::swap(i, j)` on the pixel sequence (drawing_process.rs:211); the
source indices are always in bounds there, so the out-of-bounds identity
fallback is never taken under the theorems' hypotheses. -/
def listSwap {α : Type} (l : List α) (i j : Nat) : List α :=
  match l[i]?, l[j]? with
  | some a, some b => (l.set i b).set j a
  | _, _ => l

/-- `pixels[i].update_heuristic(v)` (drawing_process.rs:64-66, 212-213):
replace the cached base heuristic of entry `i`, leaving its source
coordinates untouched. -/
def setH (l : List DrawingPixel) (i : Nat) (v : Int) : List DrawingPixel :=
  match l[i]? with
  | some p => l.set i (DrawingPixel.mk p.src_x p.src_y v)
  | none => l

/-- One swap attempt — the body of the `for _ in 0..max_swaps` loop of
`DrawingState::step` (drawing_process.rs:158-215) and, textually duplicated,
of the worker's inner loop (drawing_process.rs:336-394).  Returns the
(possibly) updated pixel sequence and the `swaps_made` increment. -/
def attempt (env : StepEnv) (pixels : List DrawingPixel) (d : AttemptDraw) :
    List DrawingPixel × Nat :=
  if |(bxOf env d : Int) - (axOf env d : Int)| > wrapI32 (maxDistB env d)
      ∨ |(byOf env d : Int) - (ayOf env d : Int)| > wrapI32 (maxDistB env d) then
    (pixels, 0)
  else
    let a_on_b_base := env.heur (srcOf pixels d.aDraw) (bxOf env d, byOf env d) (bposOf env d)
    let b_on_a_base := env.heur (srcOf pixels (bposOf env d)) (axOf env d, ayOf env d) d.aDraw
    if improvementA env pixels d + improvementB env pixels d > 0 then
      (setH (setH (listSwap pixels d.aDraw (bposOf env d)) d.aDraw b_on_a_base)
        (bposOf env d) a_on_b_base, 1)
    else
      (pixels, 0)

/-- A batch of swap attempts (`DrawingState::step`'s loop, and one iteration
of the worker's inner loop), threading the pixel sequence and accumulating
`swaps_made`. -/
def stepBatch (env : StepEnv) (pixels : List DrawingPixel) :
    List AttemptDraw → List DrawingPixel × Nat
  | [] => (pixels, 0)
  | d :: rest =>
    let r := attempt env pixels d
    let s := stepBatch env r.1 rest
    (s.1, r.2 + s.2)

/-- The permutation published after a batch (drawing_process.rs:220-225,
409-412): `src_y * sidelen + src_x` per canvas position, in scan order. -/
def assignmentsOf (sidelen : Nat) (pixels : List DrawingPixel) : List Nat :=
  pixels.map (fun p => p.src_y * sidelen + p.src_x)

/-- `DrawingState::step` (drawing_process.rs:148-230): run a batch and return
`some assignments` when at least one swap was accepted, else `none`. -/
def DrawingState.step (env : StepEnv) (pixels : List DrawingPixel)
    (draws : List AttemptDraw) : List DrawingPixel × Option (List Nat) :=
  let r := stepBatch env pixels draws
  (r.1, if r.2 > 0 then some (assignmentsOf env.sidelen r.1) else none)

lemma set_self_of_getElem? {α : Type} (l : List α) (i : Nat) (x : α)
    (h : l[i]? = some x) : l.set i x = l := by
  obtain ⟨hlen, hval⟩ := List.getElem?_eq_some_iff.mp h
  apply List.ext_getElem?
  intro j
  rw [List.getElem?_set]
  by_cases hij : i = j
  · subst hij
    rw [if_pos rfl, if_pos hlen, List.getElem?_eq_getElem hlen, hval]
  · rw [if_neg hij]

/-- Swapping two in-bounds entries (or the out-of-bounds identity fallback)
permutes the list. -/
lemma listSwap_perm {α : Type} [DecidableEq α] (l : List α) (i j : Nat) :
    (listSwap l i j).Perm l := by
  unfold listSwap
  split
  · next a b hi hj =>
    obtain ⟨hilen, hival⟩ := List.getElem?_eq_some_iff.mp hi
    obtain ⟨hjlen, hjval⟩ := List.getElem?_eq_some_iff.mp hj
    rw [List.perm_iff_count]
    intro x
    have hjlen2 : j < (l.set i b).length := by simpa using hjlen
    rw [List.count_set _ _ _ _ hjlen2, List.count_set _ _ _ _ hilen]
    have hset_j : (l.set i b)[j] = b := by
      by_cases hij : i = j
      · subst hij
        exact List.getElem_set_self _
      · rw [List.getElem_set_ne hij]
        exact hjval
    rw [hset_j, hival]
    have hA : (if (a == x) = true then 1 else 0) ≤ l.count x := by
      split
      · next hax =>
        have hx : x ∈ l := by
          rw [← eq_of_beq hax, ← hival]
          exact List.getElem_mem hilen
        exact List.count_pos_iff.mpr hx
      · omega
    omega
  · exact List.Perm.refl l

/-- `update_heuristic` does not change which source pixel an entry holds. -/
lemma setH_map_src (l : List DrawingPixel) (i : Nat) (v : Int) :
    (setH l i v).map (fun p => (p.src_x, p.src_y))
      = l.map (fun p => (p.src_x, p.src_y)) := by
  unfold setH
  split
  · next p hp =>
    rw [List.map_set]
    apply set_self_of_getElem?
    rw [List.getElem?_map, hp]
    rfl
  · rfl

/-- A single swap attempt permutes the multiset of source coordinates. -/
lemma attempt_map_src_perm (env : StepEnv) (pixels : List DrawingPixel) (d : AttemptDraw) :
    ((attempt env pixels d).1.map (fun p => (p.src_x, p.src_y))).Perm
      (pixels.map (fun p => (p.src_x, p.src_y))) := by
  unfold attempt
  split
  · exact List.Perm.refl _
  · dsimp only
    split
    · dsimp only
      rw [setH_map_src, setH_map_src]
      exact List.Perm.map _ (listSwap_perm pixels d.aDraw (bposOf env d))
    · exact List.Perm.refl _

lemma stepBatch_map_src_perm (env : StepEnv) :
    ∀ (draws : List AttemptDraw) (pixels : List DrawingPixel),
      ((stepBatch env pixels draws).1.map (fun p => (p.src_x, p.src_y))).Perm
        (pixels.map (fun p => (p.src_x, p.src_y)))
  | [], _ => List.Perm.refl _
  | d :: rest, pixels =>
    (stepBatch_map_src_perm env rest (attempt env pixels d).1).trans
      (attempt_map_src_perm env pixels d)

/-- C1: for every batch context, pixel sequence and draw sequence of any
length, the multiset of `(src_x, src_y)` source coordinates held by the
pixel sequence after the batch equals the multiset before it — accepted
attempts only swap two entries (and refresh their cached costs), so a batch
of `DrawingState::step` or of the continuous worker's inner loop preserves
the assignment as a permutation of the source index space. -/
theorem permutation_invariant_batch (env : StepEnv) (pixels : List DrawingPixel)
    (draws : List AttemptDraw) :
    (((stepBatch env pixels draws).1.map (fun p => (p.src_x, p.src_y))) : Multiset (Nat × Nat))
      = ((pixels.map (fun p => (p.src_x, p.src_y))) : Multiset (Nat × Nat)) := by
  rw [Multiset.coe_eq_coe]
  exact stepBatch_map_src_perm env draws pixels

/-- C2: an attempt that passes the radius gate performs the swap (and
refreshes the two cached base costs) exactly when
`improvement_a + improvement_b > 0` strictly; at zero or negative
improvement the pixel sequence is returned unchanged — no probabilistic
acceptance of worsening states. -/
theorem swap_iff_strict_improvement (env : StepEnv) (pixels : List DrawingPixel)
    (d : AttemptDraw)
    (hgate : ¬(|(bxOf env d : Int) - (axOf env d : Int)| > wrapI32 (maxDistB env d)
        ∨ |(byOf env d : Int) - (ayOf env d : Int)| > wrapI32 (maxDistB env d))) :
    (improvementA env pixels d + improvementB env pixels d > 0 →
      attempt env pixels d
        = (setH (setH (listSwap pixels d.aDraw (bposOf env d)) d.aDraw
              (env.heur (srcOf pixels (bposOf env d)) (axOf env d, ayOf env d) d.aDraw))
            (bposOf env d)
            (env.heur (srcOf pixels d.aDraw) (bxOf env d, byOf env d) (bposOf env d)), 1))
    ∧ (improvementA env pixels d + improvementB env pixels d ≤ 0 →
      attempt env pixels d = (pixels, 0)) := by
  constructor
  · intro himp
    unfold attempt
    rw [if_neg hgate]
    dsimp only
    rw [if_pos himp]
  · intro himp
    unfold attempt
    rw [if_neg hgate]
    dsimp only
    rw [if_neg (not_lt.mpr himp)]

/-- Witness for `swap_iff_strict_improvement`: a 1×1 context with all-zero
parameters and oracle; the gate passes, the improvement is exactly `0`, and
the attempt leaves the (empty-cost) sequence unchanged. -/
theorem swap_iff_strict_improvement_witness :
    (¬(|(bxOf (StepEnv.mk 1 [] 0 (DrawingParams.mk 0 0 0 0) (fun _ _ _ => 0)) (AttemptDraw.mk 0 0 0) : Int)
          - (axOf (StepEnv.mk 1 [] 0 (DrawingParams.mk 0 0 0 0) (fun _ _ _ => 0)) (AttemptDraw.mk 0 0 0) : Int)|
          > wrapI32 (maxDistB (StepEnv.mk 1 [] 0 (DrawingParams.mk 0 0 0 0) (fun _ _ _ => 0)) (AttemptDraw.mk 0 0 0))
        ∨ |(byOf (StepEnv.mk 1 [] 0 (DrawingParams.mk 0 0 0 0) (fun _ _ _ => 0)) (AttemptDraw.mk 0 0 0) : Int)
          - (ayOf (StepEnv.mk 1 [] 0 (DrawingParams.mk 0 0 0 0) (fun _ _ _ => 0)) (AttemptDraw.mk 0 0 0) : Int)|
          > wrapI32 (maxDistB (StepEnv.mk 1 [] 0 (DrawingParams.mk 0 0 0 0) (fun _ _ _ => 0)) (AttemptDraw.mk 0 0 0))))
    ∧ attempt (StepEnv.mk 1 [] 0 (DrawingParams.mk 0 0 0 0) (fun _ _ _ => 0))
        [DrawingPixel.mk 0 0 0] (AttemptDraw.mk 0 0 0) = ([DrawingPixel.mk 0 0 0], 0) := by
  have hmB : maxDistB (StepEnv.mk 1 [] 0 (DrawingParams.mk 0 0 0 0) (fun _ _ _ => 0))
      (AttemptDraw.mk 0 0 0) = 0 := by
    rw [show maxDistB (StepEnv.mk 1 [] 0 (DrawingParams.mk 0 0 0 0) (fun _ _ _ => 0))
        (AttemptDraw.mk 0 0 0)
      = (DrawingParams.mk 0 0 0 0).max_dist 0 from rfl, max_dist_zero]
    rfl
  have hgate : ¬(|(bxOf (StepEnv.mk 1 [] 0 (DrawingParams.mk 0 0 0 0) (fun _ _ _ => 0)) (AttemptDraw.mk 0 0 0) : Int)
        - (axOf (StepEnv.mk 1 [] 0 (DrawingParams.mk 0 0 0 0) (fun _ _ _ => 0)) (AttemptDraw.mk 0 0 0) : Int)|
        > wrapI32 (maxDistB (StepEnv.mk 1 [] 0 (DrawingParams.mk 0 0 0 0) (fun _ _ _ => 0)) (AttemptDraw.mk 0 0 0))
      ∨ |(byOf (StepEnv.mk 1 [] 0 (DrawingParams.mk 0 0 0 0) (fun _ _ _ => 0)) (AttemptDraw.mk 0 0 0) : Int)
        - (ayOf (StepEnv.mk 1 [] 0 (DrawingParams.mk 0 0 0 0) (fun _ _ _ => 0)) (AttemptDraw.mk 0 0 0) : Int)|
        > wrapI32 (maxDistB (StepEnv.mk 1 [] 0 (DrawingParams.mk 0 0 0 0) (fun _ _ _ => 0)) (AttemptDraw.mk 0 0 0))) := by
    rw [hmB]
    decide
  have himp : improvementA (StepEnv.mk 1 [] 0 (DrawingParams.mk 0 0 0 0) (fun _ _ _ => 0))
        [DrawingPixel.mk 0 0 0] (AttemptDraw.mk 0 0 0)
      + improvementB (StepEnv.mk 1 [] 0 (DrawingParams.mk 0 0 0 0) (fun _ _ _ => 0))
        [DrawingPixel.mk 0 0 0] (AttemptDraw.mk 0 0 0) ≤ 0 := by
    decide
  exact ⟨hgate,
    (swap_iff_strict_improvement (StepEnv.mk 1 [] 0 (DrawingParams.mk 0 0 0 0) (fun _ _ _ => 0))
      [DrawingPixel.mk 0 0 0] (AttemptDraw.mk 0 0 0) hgate).2 himp⟩

/-- C7: whenever the actual `|dx|` or `|dy|` between A and the clamped B
exceeds B's own recomputed radius — `max_dist` of the edit age of the cell at
B, not the radius of A used to draw B — the attempt is abandoned: no swap,
no change to the pixel sequence, `swaps_made` not incremented.  (The side
condition keeps the `u32 → i32` cast of the radius value-preserving; radii
are far below `2^31` for any decaying parameterization.) -/
theorem radius_recheck_abandons (env : StepEnv) (pixels : List DrawingPixel)
    (d : AttemptDraw)
    (hsmall : (maxDistB env d : Int) < 2147483648)
    (hgate : |(bxOf env d : Int) - (axOf env d : Int)| > (maxDistB env d : Int)
        ∨ |(byOf env d : Int) - (ayOf env d : Int)| > (maxDistB env d : Int)) :
    attempt env pixels d = (pixels, 0) := by
  have hw : wrapI32 (maxDistB env d) = (maxDistB env d : Int) := by
    have h0 : (0 : Int) ≤ (maxDistB env d : Int) := Int.natCast_nonneg _
    rw [wrapI32]
    omega
  unfold attempt
  rw [hw, if_pos hgate]

/-- Witness for `radius_recheck_abandons`: a 2×2 context whose parameters
force radius `0`; drawing `dx = 1` lands B one column away from A, B's
recomputed radius is `0 < 1`, and the attempt is a no-op. -/
theorem radius_recheck_abandons_witness :
    ((maxDistB (StepEnv.mk 2 [] 0 (DrawingParams.mk 0 0 0 0) (fun _ _ _ => 0)) (AttemptDraw.mk 0 1 0) : Int)
        < 2147483648)
    ∧ (|(bxOf (StepEnv.mk 2 [] 0 (DrawingParams.mk 0 0 0 0) (fun _ _ _ => 0)) (AttemptDraw.mk 0 1 0) : Int)
          - (axOf (StepEnv.mk 2 [] 0 (DrawingParams.mk 0 0 0 0) (fun _ _ _ => 0)) (AttemptDraw.mk 0 1 0) : Int)|
          > (maxDistB (StepEnv.mk 2 [] 0 (DrawingParams.mk 0 0 0 0) (fun _ _ _ => 0)) (AttemptDraw.mk 0 1 0) : Int)
        ∨ |(byOf (StepEnv.mk 2 [] 0 (DrawingParams.mk 0 0 0 0) (fun _ _ _ => 0)) (AttemptDraw.mk 0 1 0) : Int)
          - (ayOf (StepEnv.mk 2 [] 0 (DrawingParams.mk 0 0 0 0) (fun _ _ _ => 0)) (AttemptDraw.mk 0 1 0) : Int)|
          > (maxDistB (StepEnv.mk 2 [] 0 (DrawingParams.mk 0 0 0 0) (fun _ _ _ => 0)) (AttemptDraw.mk 0 1 0) : Int))
    ∧ attempt (StepEnv.mk 2 [] 0 (DrawingParams.mk 0 0 0 0) (fun _ _ _ => 0))
        [DrawingPixel.mk 0 0 0] (AttemptDraw.mk 0 1 0) = ([DrawingPixel.mk 0 0 0], 0) := by
  have hmB : maxDistB (StepEnv.mk 2 [] 0 (DrawingParams.mk 0 0 0 0) (fun _ _ _ => 0))
      (AttemptDraw.mk 0 1 0) = 0 := by
    rw [show maxDistB (StepEnv.mk 2 [] 0 (DrawingParams.mk 0 0 0 0) (fun _ _ _ => 0))
        (AttemptDraw.mk 0 1 0)
      = (DrawingParams.mk 0 0 0 0).max_dist 0 from rfl, max_dist_zero]
    rfl
  have hsmall : (maxDistB (StepEnv.mk 2 [] 0 (DrawingParams.mk 0 0 0 0) (fun _ _ _ => 0))
      (AttemptDraw.mk 0 1 0) : Int) < 2147483648 := by
    rw [hmB]
    decide
  have hgate : |(bxOf (StepEnv.mk 2 [] 0 (DrawingParams.mk 0 0 0 0) (fun _ _ _ => 0)) (AttemptDraw.mk 0 1 0) : Int)
        - (axOf (StepEnv.mk 2 [] 0 (DrawingParams.mk 0 0 0 0) (fun _ _ _ => 0)) (AttemptDraw.mk 0 1 0) : Int)|
        > (maxDistB (StepEnv.mk 2 [] 0 (DrawingParams.mk 0 0 0 0) (fun _ _ _ => 0)) (AttemptDraw.mk 0 1 0) : Int)
      ∨ |(byOf (StepEnv.mk 2 [] 0 (DrawingParams.mk 0 0 0 0) (fun _ _ _ => 0)) (AttemptDraw.mk 0 1 0) : Int)
        - (ayOf (StepEnv.mk 2 [] 0 (DrawingParams.mk 0 0 0 0) (fun _ _ _ => 0)) (AttemptDraw.mk 0 1 0) : Int)|
        > (maxDistB (StepEnv.mk 2 [] 0 (DrawingParams.mk 0 0 0 0) (fun _ _ _ => 0)) (AttemptDraw.mk 0 1 0) : Int) := by
    rw [hmB]
    left
    decide
  exact ⟨hsmall, hgate,
    radius_recheck_abandons (StepEnv.mk 2 [] 0 (DrawingParams.mk 0 0 0 0) (fun _ _ _ => 0))
      [DrawingPixel.mk 0 0 0] (AttemptDraw.mk 0 1 0) hsmall hgate⟩

/-- Modelled from the spec: the output-channel message kinds of §6
(`ProgressMsg` is declared outside the shown source file; the worker loop in
drawing_process.rs sends `UpdateAssignments` and `Cancelled`, while
`UpdatePreview` and `Done` are declared but never sent by this loop). -/
inductive ProgressMsg where
  | UpdateAssignments (assignments : List Nat)
  | UpdatePreview
  | Done
  | Cancelled
deriving DecidableEq

/-- How one loop iteration of `drawing_process_genetic` ends:
keep looping, `return Ok(())` after the cancellation notice, return the
propagated channel error (the `?` at drawing_process.rs:413), or panic (the
`.unwrap()` at drawing_process.rs:416). -/
inductive WorkerExit where
  | continueRun
  | okReturn
  | errReturn
  | panicked
deriving DecidableEq

/-- The launch-time parameters of `drawing_process_genetic`
(drawing_process.rs:280-290) that stay fixed for the worker's whole life:
the side length, the `frame_count` stamp, the worker's generation stamp
`my_id`, and the params. -/
structure WorkerEnv where
  sidelen : Nat
  frame_count : Nat
  my_id : Nat
  params : DrawingParams

/-- The external state one iteration observes: the color snapshot (folded
into the heuristic oracle), the metadata snapshot, the pseudorandom draws of
the batch, the live generation counter value read at the end of the
iteration, and the success of each channel send (`sendOk k` for the `k`-th
send of the iteration; `false` models a disconnected consumer). -/
structure IterInput where
  heur : Nat × Nat → Nat × Nat → Nat → Int
  pixel_data : List PixelData
  draws : List AttemptDraw
  currentId : Nat
  sendOk : Nat → Bool

/-- The batch context one worker iteration builds from its snapshots
(drawing_process.rs:326-333): everything except the snapshots comes from the
launch parameters — in particular `frame_count` is the launch stamp, never
refreshed. -/
def iterEnv (wk : WorkerEnv) (inp : IterInput) : StepEnv :=
  StepEnv.mk wk.sidelen inp.pixel_data wk.frame_count wk.params inp.heur

/-- One iteration of the worker loop (drawing_process.rs:325-418): run the
batch; if any swap was made send `UpdateAssignments` (the `?` propagates a
send failure as `errReturn`); then compare the generation stamp and, on
mismatch, send `Cancelled` (the `.unwrap()` turns a send failure into a
panic) and stop with `Ok(())`. -/
def workerIter (wk : WorkerEnv) (pixels : List DrawingPixel) (inp : IterInput) :
    List ProgressMsg × List DrawingPixel × WorkerExit :=
  let r := stepBatch (iterEnv wk inp) pixels inp.draws
  if r.2 > 0 then
    if inp.sendOk 0 then
      if wk.my_id ≠ inp.currentId then
        if inp.sendOk 1 then
          ([ProgressMsg.UpdateAssignments (assignmentsOf wk.sidelen r.1), ProgressMsg.Cancelled],
            r.1, WorkerExit.okReturn)
        else
          ([ProgressMsg.UpdateAssignments (assignmentsOf wk.sidelen r.1)], r.1,
            WorkerExit.panicked)
      else
        ([ProgressMsg.UpdateAssignments (assignmentsOf wk.sidelen r.1)], r.1,
          WorkerExit.continueRun)
    else
      ([], r.1, WorkerExit.errReturn)
  else
    if wk.my_id ≠ inp.currentId then
      if inp.sendOk 0 then
        ([ProgressMsg.Cancelled], r.1, WorkerExit.okReturn)
      else
        ([], r.1, WorkerExit.panicked)
    else
      ([], r.1, WorkerExit.continueRun)

/-- The worker loop, fueled by a list of per-iteration inputs: it concatenates
the emitted messages and stops at the first iteration that does not
`continueRun` (an exhausted input list leaves the worker still running). -/
def runWorker (wk : WorkerEnv) (pixels : List DrawingPixel) :
    List IterInput → List ProgressMsg × List DrawingPixel × WorkerExit
  | [] => ([], pixels, WorkerExit.continueRun)
  | inp :: rest =>
    match workerIter wk pixels inp with
    | (msgs, ps2, WorkerExit.continueRun) =>
      let r := runWorker wk ps2 rest
      (msgs ++ r.1, r.2)
    | (msgs, ps2, e) => (msgs, ps2, e)

lemma workerIter_continue_msgs (wk : WorkerEnv) (ps : List DrawingPixel) (inp : IterInput)
    (h : (workerIter wk ps inp).2.2 = WorkerExit.continueRun) :
    List.count ProgressMsg.Cancelled (workerIter wk ps inp).1 = 0 := by
  unfold workerIter at h ⊢
  rcases Nat.lt_or_ge 0 (stepBatch (iterEnv wk inp) ps inp.draws).2 with hs | hs
  · rw [if_pos hs] at h ⊢
    split_ifs at h ⊢ with h1 h2 h3
    all_goals simp_all
  · rw [if_neg (by omega)] at h ⊢
    split_ifs at h ⊢ with h1 h2
    all_goals simp_all

lemma runWorker_continue_msgs (wk : WorkerEnv) :
    ∀ (inputs : List IterInput) (ps : List DrawingPixel),
      (runWorker wk ps inputs).2.2 = WorkerExit.continueRun →
      List.count ProgressMsg.Cancelled (runWorker wk ps inputs).1 = 0
  | [], _, _ => rfl
  | inp :: rest, ps, h => by
    rw [runWorker] at h ⊢
    generalize hI : workerIter wk ps inp = w at h ⊢
    obtain ⟨msgs, ps2, e⟩ := w
    cases e with
    | continueRun =>
      dsimp only at h ⊢
      rw [List.count_append]
      have h1 : List.count ProgressMsg.Cancelled msgs = 0 := by
        have h2 := workerIter_continue_msgs wk ps inp (by rw [hI])
        rw [hI] at h2
        exact h2
      have h2 := runWorker_continue_msgs wk rest ps2 h
      omega
    | okReturn => simp at h
    | errReturn => simp at h
    | panicked => simp at h

lemma runWorker_append (wk : WorkerEnv) :
    ∀ (pre : List IterInput) (ps : List DrawingPixel) (rest : List IterInput),
      (runWorker wk ps pre).2.2 = WorkerExit.continueRun →
      runWorker wk ps (pre ++ rest)
        = ((runWorker wk ps pre).1 ++ (runWorker wk (runWorker wk ps pre).2.1 rest).1,
           (runWorker wk (runWorker wk ps pre).2.1 rest).2)
  | [], ps, rest, _ => by simp [runWorker]
  | inp :: pre, ps, rest, h => by
    rw [runWorker] at h
    have hcons : runWorker wk ps ((inp :: pre) ++ rest)
        = runWorker wk ps (inp :: (pre ++ rest)) := rfl
    rw [hcons, runWorker, runWorker]
    generalize hI : workerIter wk ps inp = w at h ⊢
    obtain ⟨msgs, ps2, e⟩ := w
    cases e with
    | continueRun =>
      dsimp only at h ⊢
      rw [runWorker_append wk pre ps2 rest h, List.append_assoc]
    | okReturn => simp at h
    | errReturn => simp at h
    | panicked => simp at h

lemma workerIter_mismatch (wk : WorkerEnv) (ps : List DrawingPixel) (inp : IterInput)
    (hmis : wk.my_id ≠ inp.currentId)
    (h0 : inp.sendOk 0 = true) (h1 : inp.sendOk 1 = true) :
    (workerIter wk ps inp).2.2 = WorkerExit.okReturn
    ∧ List.count ProgressMsg.Cancelled (workerIter wk ps inp).1 = 1
    ∧ (workerIter wk ps inp).1.getLast? = some ProgressMsg.Cancelled := by
  unfold workerIter
  rcases Nat.lt_or_ge 0 (stepBatch (iterEnv wk inp) ps inp.draws).2 with hs | hs
  · rw [if_pos hs, if_pos h0, if_pos hmis, if_pos h1]
    exact ⟨rfl, by simp, rfl⟩
  · rw [if_neg (by omega), if_pos hmis, if_pos h0]
    exact ⟨rfl, by simp, rfl⟩

/-- C8: once an iteration observes the generation mismatch (checked once per
batch, after the publish step) and its sends succeed, the run emits exactly
one `Cancelled` message, that message is the last one emitted, and the
remaining iteration inputs (`post`) are never consumed — no further batch,
snapshot, or publish happens after the mismatch is observed: the whole run
collapses to the prefix plus that final iteration, ending `Ok(())`. -/
theorem cancellation_single_notice (wk : WorkerEnv) (ps : List DrawingPixel)
    (pre : List IterInput) (inp : IterInput) (post : List IterInput)
    (hpre : (runWorker wk ps pre).2.2 = WorkerExit.continueRun)
    (hmis : wk.my_id ≠ inp.currentId)
    (h0 : inp.sendOk 0 = true) (h1 : inp.sendOk 1 = true) :
    runWorker wk ps (pre ++ inp :: post)
      = ((runWorker wk ps pre).1 ++ (workerIter wk (runWorker wk ps pre).2.1 inp).1,
         (workerIter wk (runWorker wk ps pre).2.1 inp).2.1, WorkerExit.okReturn)
    ∧ List.count ProgressMsg.Cancelled (runWorker wk ps (pre ++ inp :: post)).1 = 1
    ∧ (runWorker wk ps (pre ++ inp :: post)).1.getLast? = some ProgressMsg.Cancelled := by
  obtain ⟨hex, hcount, hlast⟩ :=
    workerIter_mismatch wk (runWorker wk ps pre).2.1 inp hmis h0 h1
  have hstep : runWorker wk (runWorker wk ps pre).2.1 (inp :: post)
      = ((workerIter wk (runWorker wk ps pre).2.1 inp).1,
         (workerIter wk (runWorker wk ps pre).2.1 inp).2.1, WorkerExit.okReturn) := by
    rw [runWorker]
    generalize hI : workerIter wk (runWorker wk ps pre).2.1 inp = w at hex ⊢
    obtain ⟨msgs, ps2, e⟩ := w
    dsimp only at hex
    subst hex
    rfl
  have happ := runWorker_append wk pre ps (inp :: post) hpre
  rw [hstep] at happ
  have hprecount := runWorker_continue_msgs wk pre ps hpre
  refine ⟨?_, ?_, ?_⟩
  · rw [happ]
  · rw [happ]
    dsimp only
    rw [List.count_append]
    omega
  · rw [happ]
    dsimp only
    rw [List.getLast?_append, hlast]
    rfl

/-- Witness for `cancellation_single_notice`: an empty prefix, a worker
stamped `my_id = 0` observing live counter `1`, with succeeding sends and a
trailing input that is provably never consumed. -/
theorem cancellation_single_notice_witness :
    (runWorker (WorkerEnv.mk 1 0 0 (DrawingParams.mk 0 0 0 0)) [] ([] : List IterInput)).2.2
        = WorkerExit.continueRun
    ∧ List.count ProgressMsg.Cancelled
        (runWorker (WorkerEnv.mk 1 0 0 (DrawingParams.mk 0 0 0 0)) []
          ([] ++ IterInput.mk (fun _ _ _ => 0) [] [] 1 (fun _ => true)
              :: [IterInput.mk (fun _ _ _ => 0) [] [] 1 (fun _ => true)])).1 = 1 :=
  ⟨rfl,
    (cancellation_single_notice (WorkerEnv.mk 1 0 0 (DrawingParams.mk 0 0 0 0)) [] []
      (IterInput.mk (fun _ _ _ => 0) [] [] 1 (fun _ => true))
      [IterInput.mk (fun _ _ _ => 0) [] [] 1 (fun _ => true)]
      rfl (by decide) rfl rfl).2.1⟩

/-- C9 counterexample input: a worker that observes the generation mismatch
while the consumer is disconnected (`sendOk ≡ false`).  The terminal
`Cancelled` send is `.unwrap()`ed (drawing_process.rs:416), so the failure
*panics* instead of being propagated as the worker's return value — the
claim's "propagated up as the worker's return value ... for every message
kind including the terminal Cancelled notice" fails here. -/
theorem cancelled_send_failure_not_err_cex :
    (workerIter (WorkerEnv.mk 1 0 0 (DrawingParams.mk 0 0 0 0)) []
        (IterInput.mk (fun _ _ _ => 0) [] [] 1 (fun _ => false))).2.2 = WorkerExit.panicked
    ∧ (workerIter (WorkerEnv.mk 1 0 0 (DrawingParams.mk 0 0 0 0)) []
        (IterInput.mk (fun _ _ _ => 0) [] [] 1 (fun _ => false))).2.2 ≠ WorkerExit.errReturn := by
  constructor
  · rfl
  · intro hcontra
    exact absurd (rfl.symm.trans hcontra) (by decide)

/-- C9 (amended): a send failure is fatal for the worker in every case, with
no retry — but the mechanism differs by message kind: a failed
`UpdateAssignments` send is propagated as the worker's `Err` return (the `?`
operator), the message list ends at the failure and the rest of the run is
never executed, while a failed terminal `Cancelled` send stops the worker by
panicking (the `.unwrap()`), not by an `Err` return. -/
theorem send_failure_stops_worker (wk : WorkerEnv) (ps : List DrawingPixel)
    (inp : IterInput) (post : List IterInput) :
    ((stepBatch (iterEnv wk inp) ps inp.draws).2 > 0 → inp.sendOk 0 = false →
      workerIter wk ps inp
          = ([], (stepBatch (iterEnv wk inp) ps inp.draws).1, WorkerExit.errReturn)
      ∧ runWorker wk ps (inp :: post)
          = ([], (stepBatch (iterEnv wk inp) ps inp.draws).1, WorkerExit.errReturn))
    ∧ ((stepBatch (iterEnv wk inp) ps inp.draws).2 > 0 → inp.sendOk 0 = true →
        wk.my_id ≠ inp.currentId → inp.sendOk 1 = false →
        (workerIter wk ps inp).2.2 = WorkerExit.panicked)
    ∧ ((stepBatch (iterEnv wk inp) ps inp.draws).2 = 0 →
        wk.my_id ≠ inp.currentId → inp.sendOk 0 = false →
        (workerIter wk ps inp).2.2 = WorkerExit.panicked) := by
  refine ⟨?_, ?_, ?_⟩
  · intro hs hsend
    have hiter : workerIter wk ps inp
        = ([], (stepBatch (iterEnv wk inp) ps inp.draws).1, WorkerExit.errReturn) := by
      unfold workerIter
      rw [if_pos hs, if_neg (by rw [hsend]; exact Bool.false_ne_true)]
    refine ⟨hiter, ?_⟩
    rw [runWorker]
    generalize hI : workerIter wk ps inp = w
    rw [hI] at hiter
    subst hiter
    rfl
  · intro hs hsend hmis hsend1
    unfold workerIter
    rw [if_pos hs, if_pos hsend, if_pos hmis,
      if_neg (by rw [hsend1]; exact Bool.false_ne_true)]
  · intro hs hmis hsend
    unfold workerIter
    rw [if_neg (by omega), if_pos hmis,
      if_neg (by rw [hsend]; exact Bool.false_ne_true)]

/-- Witness for `send_failure_stops_worker`: a 1×1 worker whose single
attempt accepts (cached cost `5` against a zero oracle), so the batch
reports one swap; the assignments send fails and the worker returns the
error. -/
theorem send_failure_stops_worker_witness :
    (stepBatch
        (iterEnv (WorkerEnv.mk 1 0 0 (DrawingParams.mk 0 0 0 0))
          (IterInput.mk (fun _ _ _ => 0) [] [AttemptDraw.mk 0 0 0] 0 (fun _ => false)))
        [DrawingPixel.mk 0 0 5] [AttemptDraw.mk 0 0 0]).2 > 0
    ∧ workerIter (WorkerEnv.mk 1 0 0 (DrawingParams.mk 0 0 0 0)) [DrawingPixel.mk 0 0 5]
        (IterInput.mk (fun _ _ _ => 0) [] [AttemptDraw.mk 0 0 0] 0 (fun _ => false))
      = ([], (stepBatch
            (iterEnv (WorkerEnv.mk 1 0 0 (DrawingParams.mk 0 0 0 0))
              (IterInput.mk (fun _ _ _ => 0) [] [AttemptDraw.mk 0 0 0] 0 (fun _ => false)))
            [DrawingPixel.mk 0 0 5] [AttemptDraw.mk 0 0 0]).1, WorkerExit.errReturn) := by
  have hmB : maxDistB
      (iterEnv (WorkerEnv.mk 1 0 0 (DrawingParams.mk 0 0 0 0))
        (IterInput.mk (fun _ _ _ => 0) [] [AttemptDraw.mk 0 0 0] 0 (fun _ => false)))
      (AttemptDraw.mk 0 0 0) = 0 := by
    rw [show maxDistB
        (iterEnv (WorkerEnv.mk 1 0 0 (DrawingParams.mk 0 0 0 0))
          (IterInput.mk (fun _ _ _ => 0) [] [AttemptDraw.mk 0 0 0] 0 (fun _ => false)))
        (AttemptDraw.mk 0 0 0)
      = (DrawingParams.mk 0 0 0 0).max_dist 0 from rfl, max_dist_zero]
    rfl
  have hatt : attempt
      (iterEnv (WorkerEnv.mk 1 0 0 (DrawingParams.mk 0 0 0 0))
        (IterInput.mk (fun _ _ _ => 0) [] [AttemptDraw.mk 0 0 0] 0 (fun _ => false)))
      [DrawingPixel.mk 0 0 5] (AttemptDraw.mk 0 0 0) = ([DrawingPixel.mk 0 0 0], 1) := by
    unfold attempt
    rw [hmB]
    rw [if_neg (by decide)]
    dsimp only
    rw [if_pos (by decide)]
    decide
  have hbatch : stepBatch
      (iterEnv (WorkerEnv.mk 1 0 0 (DrawingParams.mk 0 0 0 0))
        (IterInput.mk (fun _ _ _ => 0) [] [AttemptDraw.mk 0 0 0] 0 (fun _ => false)))
      [DrawingPixel.mk 0 0 5] [AttemptDraw.mk 0 0 0] = ([DrawingPixel.mk 0 0 0], 1) := by
    simp only [stepBatch, hatt]
  have hswaps : (stepBatch
      (iterEnv (WorkerEnv.mk 1 0 0 (DrawingParams.mk 0 0 0 0))
        (IterInput.mk (fun _ _ _ => 0) [] [AttemptDraw.mk 0 0 0] 0 (fun _ => false)))
      [DrawingPixel.mk 0 0 5] [AttemptDraw.mk 0 0 0]).2 > 0 := by
    rw [hbatch]
    decide
  exact ⟨hswaps,
    ((send_failure_stops_worker (WorkerEnv.mk 1 0 0 (DrawingParams.mk 0 0 0 0))
      [DrawingPixel.mk 0 0 5]
      (IterInput.mk (fun _ _ _ => 0) [] [AttemptDraw.mk 0 0 0] 0 (fun _ => false)) []).1
      hswaps rfl).1⟩

/-- C10: ages are computed against the `frame_count` captured at worker
launch (`iterEnv` stamps every batch context with `wk.frame_count`,
drawing_process.rs:286, 342, 350 — it is never refreshed between batches);
consequently a cell whose `last_edited` was pushed past the launch stamp by
the external painter saturates to age `0` in every subsequent batch, and —
in the decaying regime `0 ≤ decay ≤ 1`, `min ≤ base`, with an
`f32`-representable base (`≤ 2^24`, so `base as f32` is the identity) —
receives exactly the base radius, the maximum the policy ever grants. -/
theorem stale_frame_count_max_radius (wk : WorkerEnv) (inp : IterInput) (d : AttemptDraw)
    (hfuture : wk.frame_count < (inp.pixel_data.getD d.aDraw default).last_edited)
    (hdecay0 : 0 ≤ wk.params.max_dist_decay) (hdecay1 : wk.params.max_dist_decay ≤ 1)
    (hmin : wk.params.max_dist_min ≤ wk.params.max_dist_base)
    (hbase : wk.params.max_dist_base ≤ 16777216) :
    maxDistA (iterEnv wk inp) d = wk.params.max_dist 0
    ∧ wk.params.max_dist 0 = wk.params.max_dist_base
    ∧ ∀ a : Nat, wk.params.max_dist a ≤ wk.params.max_dist 0 := by
  have hage : wk.frame_count - (inp.pixel_data.getD d.aDraw default).last_edited = 0 :=
    Nat.sub_eq_zero_of_le (le_of_lt hfuture)
  refine ⟨?_, ?_, ?_⟩
  · show wk.params.max_dist
        (wk.frame_count - (inp.pixel_data.getD d.aDraw default).last_edited)
      = wk.params.max_dist 0
    rw [hage]
  · rw [max_dist_zero, f32ofNat_of_le hbase, f32ofNat_of_le (le_trans hmin hbase),
      max_eq_left hmin]
    omega
  · intro a
    exact max_dist_antitone wk.params hdecay0 hdecay1 (Nat.zero_le a)

/-- Witness for `stale_frame_count_max_radius`: launch stamp `0`, a cell
edited at time `5` by the painter, params `base = 3`, `decay = 1`,
`min = 2`. -/
theorem stale_frame_count_max_radius_witness :
    ((WorkerEnv.mk 1 0 0 (DrawingParams.mk 0 3 1 2)).frame_count
      < ((IterInput.mk (fun _ _ _ => 0) [PixelData.mk 0 5] [] 0 (fun _ => true)).pixel_data.getD
          (AttemptDraw.mk 0 0 0).aDraw default).last_edited)
    ∧ maxDistA
        (iterEnv (WorkerEnv.mk 1 0 0 (DrawingParams.mk 0 3 1 2))
          (IterInput.mk (fun _ _ _ => 0) [PixelData.mk 0 5] [] 0 (fun _ => true)))
        (AttemptDraw.mk 0 0 0)
      = (WorkerEnv.mk 1 0 0 (DrawingParams.mk 0 3 1 2)).params.max_dist 0 :=
  ⟨by decide,
    (stale_frame_count_max_radius (WorkerEnv.mk 1 0 0 (DrawingParams.mk 0 3 1 2))
      (IterInput.mk (fun _ _ _ => 0) [PixelData.mk 0 5] [] 0 (fun _ => true))
      (AttemptDraw.mk 0 0 0) (by decide) (by norm_num) (by norm_num) (by decide)
      (by decide)).1⟩
